import Mathlib

/-!
Verification of the Digital Twin metamodel language-service logic of
`src/extension.ts` (vscode-iot-workbench).

The file embeds, in order:
* the document-kind classification (`getDocumentType`, lines 31-37);
* the completion provider's candidate computation
  (`provideCompletionItems`, lines 187-318), including the duplicate-label
  merge performed for array-valued resolved types (lines 262-287);
* the hover provider (`provideHover`, lines 157-178);
* the diagnostic / debounce-timer state machine built by `activate`
  (lines 82-149): the shared `waitingForUpdatingDiagnostic` handle, the
  open / edit / active-editor-switch / close event handlers and timer
  callbacks.

The ontology resolver (`DigitalTwinMetaModelParser`), the JSON structural
parser (`DigitalTwinMetaModelJsonParser`) and the diagnostic engine
(`DigitalTwinDiagnostic`) are declared and called by `extension.ts` but
their sources are not provided; they are modelled from the spec as total
abstract functions supplied as parameters (spec §4.2, §4.3, §4.5, §7:
"all lookups are total ... resolver never throws for unknown input").
-/

/-- Document kinds: the two root metamodel kinds (spec §2, glossary). -/
inductive DocumentType
  | Interface
  | CapabilityModel
deriving DecidableEq, Repr

/-- Embeds `getDocumentType` (extension.ts lines 31-37): a path matching
`/\.interface\.json$/` is an Interface document, anything else a
CapabilityModel. Suffix testing is done on the character list so that it
evaluates inside the kernel. -/
def hasSuffixChars (s suffix : String) : Bool :=
  List.isPrefixOf suffix.data.reverse s.data.reverse

def getDocumentType (path : String) : DocumentType :=
  if hasSuffixChars path ".interface.json" then DocumentType.Interface
  else DocumentType.CapabilityModel

/-- Embeds the filename filter `/\.(interface|capabilitymodel)\.json$/`
used by every document event handler (extension.ts lines 72, 85, 101,
126, 139). -/
def matchesMetaModel (path : String) : Bool :=
  hasSuffixChars path ".interface.json" ||
    hasSuffixChars path ".capabilitymodel.json"

/-- One entry of a typed-property list:
`{label: string, required: boolean, type?: string}` (extension.ts
lines 239-242); `type` is the optional range type. -/
structure TypedProperty where
  label : String
  required : Bool
  type : Option String
deriving DecidableEq, Repr

/-- Modelled from the spec: the JSON field `jsonInfo.type` produced by the
structural parser can be absent (`undefined`), a single type name
(string, possibly empty) or an array of type names (spec §3
`CursorContext.resolvedType : string | string[] | unresolved`; the code
tests all three shapes at extension.ts lines 243, 255-256, 262). -/
inductive JsonFieldType
  | undef
  | str (s : String)
  | arr (ts : List String)
deriving DecidableEq, Repr

/-- Modelled from the spec: the cursor context returned by
`DigitalTwinMetaModelJsonParser.getJsonInfoAtPosition` (spec §3
`CursorContext`, §4.3), restricted to the fields `provideCompletionItems`
reads: value/key position flag, current key, nearest ancestor key,
resolved type and the sibling property names already present. -/
structure JsonInfo where
  isValue : Bool
  key : String
  lastKey : Option String
  type : JsonFieldType
  properties : List String
deriving DecidableEq, Repr

/-- Modelled from the spec: the Ontology Resolver
(`DigitalTwinMetaModelParser`, spec §4.2), whose source is not among the
provided files. Per spec §4.2/§7 every lookup is total and returns
empty/none on a miss, so each operation is a total function. The
`DigitalTwinMetaModelContext` argument each method takes in the code is
fixed by the enclosing completion request, so it is pre-applied here. -/
structure DTResolver where
  getIdFromShortName : String → Option String
  getTypesFromId : String → List String
  getTypedPropertiesFromType : String → List TypedProperty
  getStringValuesFromShortName : String → List String
  getCommentFromId : String → Option String

/-- Result of one completion request, keeping only the candidate payload
(the editor-range bookkeeping of `getCompletionItemsFromArray` is outside
the modelled logic): `null` (`noResult`), a list of literal value
candidates, or a list of key candidates. -/
inductive CompletionResult
  | noResult
  | values (vs : List String)
  | keys (ks : List TypedProperty)
deriving DecidableEq, Repr

/-- Embeds the `@context` URI choice of extension.ts lines 210-212. -/
def contextUri : DocumentType → String
  | DocumentType.Interface => "http://azureiot.com/v0/contexts/Interface.json"
  | DocumentType.CapabilityModel =>
      "http://azureiot.com/v0/contexts/CapabilityModel.json"

/-- The name of a document kind, as pushed at extension.ts line 223
(`values = [contextType]`). -/
def docTypeName : DocumentType → String
  | DocumentType.Interface => "Interface"
  | DocumentType.CapabilityModel => "CapabilityModel"

/-- JavaScript truthiness of `jsonInfo.type` (line 243 `!jsonInfo.type`):
`undefined` and the empty string are falsy; every array — even the empty
one — is truthy. -/
def jsonTypeTruthy : JsonFieldType → Bool
  | JsonFieldType.undef => false
  | JsonFieldType.str s => !(s == "")
  | JsonFieldType.arr _ => true

/-- The guard of extension.ts lines 255-256:
`typeof type === 'string' && type !== '' || Array.isArray(type) && type.length > 0`. -/
def typeNonEmpty : JsonFieldType → Bool
  | JsonFieldType.undef => false
  | JsonFieldType.str s => !(s == "")
  | JsonFieldType.arr ts => decide (0 < ts.length)

/-- The root-kind test of extension.ts lines 257-258 and 302-303:
`jsonInfo.type === 'Interface' || jsonInfo.type === 'CapabilityModel'`.
Strict string equality: an array value never passes. -/
def isRootTypeStr : JsonFieldType → Bool
  | JsonFieldType.str s => s == "Interface" || s == "CapabilityModel"
  | _ => false

/-- Embeds extension.ts lines 243-253: when `jsonInfo.type` is falsy, try
to infer it from the parent property (`lastKey`): resolve the short name
to an id, take its declared types, and adopt the type only when there is
exactly one and it is not a root kind. The code passes a possibly
`undefined` `lastKey` straight to `getIdFromShortName`; per spec §4.2 a
missing input resolves to no id, modelled by `Option.bind`. -/
def resolveJsonType (p : DTResolver) (j : JsonInfo) : JsonFieldType :=
  if jsonTypeTruthy j.type then j.type
  else
    match j.lastKey.bind p.getIdFromShortName with
    | none => j.type
    | some id =>
      match p.getTypesFromId id with
      | [v] =>
        if v == "Interface" || v == "CapabilityModel" then j.type
        else JsonFieldType.str v
      | _ => j.type

/-- Embeds the body of the merge loop at extension.ts lines 270-279: the
object `completionObject` is keyed by label; a repeated label ORs the
`required` flags (`existing && existing.required || keyObject.required`)
and keeps the range type already stored (`existing ? existing.type :
keyObject.type`) — the stored type is kept even when it is `undefined`.
The association list preserves string-key insertion order, matching
`Object.keys` enumeration order for these non-index keys. -/
def upsertProp (acc : List TypedProperty) (k : TypedProperty) :
    List TypedProperty :=
  if acc.any (fun e => e.label == k.label) then
    acc.map (fun e =>
      if e.label == k.label then
        { e with required := e.required || k.required }
      else e)
  else acc ++ [k]

/-- Embeds extension.ts lines 267-287: fold the concatenated key list into
`completionObject` and read it back in insertion order. -/
def mergeKeyList (l : List TypedProperty) : List TypedProperty :=
  l.foldl upsertProp []

/-- Embeds the key-position branch of `provideCompletionItems`
(extension.ts lines 238-307): resolve the type (lines 243-253); when the
resolved type is the root-kind *string* and `@context` is absent, push a
required `@context` (lines 257-261; in the source this push sits inside
the non-empty-type branch, which the root-kind test implies); build the
key list — merged across an array of types (lines 262-287), directly for
a single type string (lines 288-291), or the bootstrap `@type` entry when
no type is available (lines 292-294); filter out keys already present
(lines 296-300); finally push a required `@id` for root-kind strings when
absent (lines 302-307). -/
def keyCompletions (p : DTResolver) (j : JsonInfo) : List TypedProperty :=
  let t := resolveJsonType p j
  let contextInjected : List TypedProperty :=
    if isRootTypeStr t && !(j.properties.contains "@context") then
      [{ label := "@context", required := true, type := none }]
    else []
  let keyList : List TypedProperty :=
    if typeNonEmpty t then
      match t with
      | JsonFieldType.arr ts =>
          mergeKeyList
            (ts.foldl (fun acc ty => acc ++ p.getTypedPropertiesFromType ty) [])
      | JsonFieldType.str s => p.getTypedPropertiesFromType s
      | JsonFieldType.undef => []
    else [{ label := "@type", required := true, type := none }]
  let filtered := keyList.filter (fun k => !(j.properties.contains k.label))
  let idInjected : List TypedProperty :=
    if isRootTypeStr t && !(j.properties.contains "@id") then
      [{ label := "@id", required := true, type := some "string" }]
    else []
  contextInjected ++ filtered ++ idInjected

/-- Embeds the value-position branch of `provideCompletionItems`
(extension.ts lines 207-228): `@context` yields the single fixed URI;
`@type` yields the declared types of the resolved parent property when
`lastKey` is truthy (returning `null` when the short name does not
resolve, lines 218-220) and the context kind name otherwise; any other
key yields `getStringValuesFromShortName`. -/
def valueCompletions (p : DTResolver) (ctx : DocumentType) (j : JsonInfo) :
    CompletionResult :=
  if j.key == "@context" then
    CompletionResult.values [contextUri ctx]
  else if j.key == "@type" then
    match j.lastKey with
    | some lk =>
      if lk == "" then CompletionResult.values [docTypeName ctx]
      else
        match p.getIdFromShortName lk with
        | none => CompletionResult.noResult
        | some id => CompletionResult.values (p.getTypesFromId id)
    | none => CompletionResult.values [docTypeName ctx]
  else CompletionResult.values (p.getStringValuesFromShortName j.key)

/-- Embeds `provideCompletionItems` (extension.ts lines 187-318) down to
the candidate lists. `ctx` is the context kind computed at lines 193-202
(`getDigitalTwinContextTypeAtPosition` composed with the `dtInterface` /
`dtCapabilityModel` choice); `jOpt` is the parser's cursor context, with
`none` embedding the `null` early return of lines 204-206. -/
def provideCompletionItems (p : DTResolver) (ctx : DocumentType)
    (jOpt : Option JsonInfo) : CompletionResult :=
  match jOpt with
  | none => CompletionResult.noResult
  | some j =>
    if j.isValue then valueCompletions p ctx j
    else CompletionResult.keys (keyCompletions p j)

/-- Embeds `provideHover` (extension.ts lines 157-178). `idOpt` is the
result of `getIdAtPosition` (parser source not provided; `none` or the
empty string are falsy and produce no hover). The three reserved keys
`@id`, `@type`, `@context` get fixed strings; every other id falls
through to `getCommentFromId`. A comment that is the empty string is
falsy at line 176 (`hoverText ? new Hover(hoverText) : null`), hence no
hover. -/
def provideHover (p : DTResolver) (idOpt : Option String) : Option String :=
  match idOpt with
  | none => none
  | some id =>
    if id == "" then none
    else
      let hoverText : Option String :=
        if id == "@id" then
          some "An identifier for Digital Twin capability model or interface."
        else if id == "@type" then
          some "The type of Digital Twin meta model object."
        else if id == "@context" then
          some "The context for Digital Twin capability model or interface."
        else p.getCommentFromId id
      match hoverText with
      | none => none
      | some t => if t == "" then none else some t

/-- Written from the words of the spec sentence behind claim C1: "keep the
range type from whichever type declares one (first non-null wins)" — the
first non-`none` range type among the entries carrying the given label. -/
def firstNonNullRangeType (lbl : String) (l : List TypedProperty) :
    Option String :=
  ((l.filter (fun e => e.label == lbl)).filterMap (fun e => e.type)).head?

/-- Whether any entry with the given label is required: the OR of the
`required` flags of every entry carrying the label. -/
def orRequired (lbl : String) (l : List TypedProperty) : Bool :=
  l.any (fun e => e.label == lbl && e.required)

/-- Written from the spec's merge description as amended by claim C1's
counterexample: duplicate labels collapse to one entry, in first-occurrence
order; the `required` flag is the OR of every entry with that label; the
range type is the one carried by the FIRST entry with that label (even
when it is `none` — a later non-null range type does not override it). -/
def specMerge : List TypedProperty → List TypedProperty
  | [] => []
  | k :: rest =>
    { k with required := k.required || orRequired k.label rest } ::
      specMerge (rest.filter (fun e => !(e.label == k.label)))
termination_by l => l.length
decreasing_by
  simp_wf
  exact Nat.lt_succ_of_le (List.length_filter_le _ _)

/-- The two kinds of revalidation timer scheduled by `activate`: the 0ms
timer of `onDidOpenTextDocument` (extension.ts lines 89-96) and the 500ms
debounce timer of `onDidChangeTextDocument` (lines 109-117). -/
inductive TimerKind
  | openTimer
  | editTimer
deriving DecidableEq, Repr

/-- A live `setTimeout` handle: its numeric id, the document its callback
captured, and which handler scheduled it. -/
structure PendingTimer where
  tid : Nat
  doc : String
  kind : TimerKind
deriving DecidableEq, Repr

/-- State of the diagnostic/debounce layer of `activate`: the single
shared variable `waitingForUpdatingDiagnostic` (extension.ts line 82),
the set of not-yet-fired timers, the per-document diagnostic listing of
`DigitalTwinDiagnostic` as an association list, and a fresh-id counter. -/
structure LSState where
  slot : Option Nat
  pending : List PendingTimer
  diags : List (String × List String)
  nextId : Nat
deriving DecidableEq, Repr

/-- Events the layer reacts to: the four workspace/window events wired in
`activate`, plus the firing of a scheduled timer (chosen by the
environment, which abstracts real elapsed time). -/
inductive DocEvent
  | openDoc (d : String)
  | editDoc (d : String)
  | switchEditor (d : String)
  | closeDoc (d : String)
  | fireTimer (tid : Nat)
deriving DecidableEq, Repr

def removeDiagEntry (m : List (String × List String)) (d : String) :
    List (String × List String) :=
  m.filter (fun e => !(e.1 == d))

def setDiagEntry (m : List (String × List String)) (d : String)
    (val : List String) : List (String × List String) :=
  removeDiagEntry m d ++ [(d, val)]

/-- The diagnostic listing currently stored for a document identity. -/
def getDiagsOf (s : LSState) (d : String) : List String :=
  ((s.diags.find? (fun e => e.1 == d)).map (fun e => e.2)).getD []

/-- The pending timers whose callback captured the given document. -/
def pendingFor (s : LSState) (d : String) : List PendingTimer :=
  s.pending.filter (fun t => t.doc == d)

/-- Modelled from the spec: `DigitalTwinDiagnostic.update(context,
document)` replaces the document's diagnostic set with the validation
result (spec §4.5); its source is not among the provided files, so the
validation result is an abstract parameter `v` of the machine, keyed by
the ontology context chosen from the document kind exactly as in the
handlers (`if documentType === 'Interface' ... else ...`, e.g.
extension.ts lines 110-115). -/
def updateDiags (v : DocumentType → String → List String) (d : String)
    (m : List (String × List String)) : List (String × List String) :=
  if getDocumentType d = DocumentType.Interface then
    setDiagEntry m d (v DocumentType.Interface d)
  else
    setDiagEntry m d (v DocumentType.CapabilityModel d)

/-- One step of the layer. Faithful points, each from the source:
* `openDoc` (lines 84-97): schedules a timer and overwrites the shared
  handle WITHOUT clearing the previous one;
* `editDoc` (lines 99-118): `clearTimeout` on whatever timer the shared
  handle references — whichever document it belongs to — then schedules a
  new timer for the edited document (clearing an already-fired handle is
  a no-op, which the filter models);
* the edit timer's callback (lines 109-117) updates the diagnostics and
  unconditionally nulls the shared handle; the open timer's callback
  (lines 89-96) only updates the diagnostics;
* `switchEditor` (lines 120-136): immediate update, no timer;
* `closeDoc` (lines 138-149): `dtDiagnostic.delete(document)` only — the
  pending timers and the shared handle are untouched.
Every handler first applies the filename filter. -/
def step (v : DocumentType → String → List String) (s : LSState) :
    DocEvent → LSState
  | DocEvent.openDoc d =>
    if matchesMetaModel d then
      { s with slot := some s.nextId,
               pending := s.pending ++ [⟨s.nextId, d, TimerKind.openTimer⟩],
               nextId := s.nextId + 1 }
    else s
  | DocEvent.editDoc d =>
    if matchesMetaModel d then
      let cleared : List PendingTimer :=
        match s.slot with
        | some tid => s.pending.filter (fun t => !(t.tid == tid))
        | none => s.pending
      { s with slot := some s.nextId,
               pending := cleared ++ [⟨s.nextId, d, TimerKind.editTimer⟩],
               nextId := s.nextId + 1 }
    else s
  | DocEvent.switchEditor d =>
    if matchesMetaModel d then
      { s with diags := updateDiags v d s.diags }
    else s
  | DocEvent.closeDoc d =>
    if matchesMetaModel d then
      { s with diags := removeDiagEntry s.diags d }
    else s
  | DocEvent.fireTimer tid =>
    match s.pending.find? (fun t => t.tid == tid) with
    | none => s
    | some t =>
      let s1 :=
        { s with pending := s.pending.filter (fun u => !(u.tid == tid)),
                 diags := updateDiags v t.doc s.diags }
      match t.kind with
      | TimerKind.editTimer => { s1 with slot := none }
      | TimerKind.openTimer => s1

/-- The initial state at the end of `activate` (line 82: the shared handle
starts `null`; no timers, no diagnostics). -/
def initState : LSState :=
  { slot := none, pending := [], diags := [], nextId := 0 }

/-- Run a trace of events from the initial state. -/
def runEvents (v : DocumentType → String → List String)
    (es : List DocEvent) : LSState :=
  es.foldl (step v) initState

/-- A validation function producing no diagnostics, used to instantiate
concrete traces whose diagnostic content is irrelevant. -/
def noDiagnostics : DocumentType → String → List String := fun _ _ => []

/-- A validation function reporting one missing-required-property
diagnostic for every metamodel document (spec §4.5/§8 guarantee such
documents exist, e.g. one missing a required property). -/
def oneDiagnostic : DocumentType → String → List String :=
  fun _ _ => ["MissingRequiredProperty"]

/-- A resolver with empty answers everywhere: the graph declares nothing
relevant. Used to instantiate concrete completion requests. -/
def pTriv : DTResolver :=
  { getIdFromShortName := fun _ => none
    getTypesFromId := fun _ => []
    getTypedPropertiesFromType := fun _ => []
    getStringValuesFromShortName := fun _ => []
    getCommentFromId := fun _ => none }

/-- A small concrete resolver: the short name `temperature` resolves to an
id with one declared type and a comment. -/
def pW : DTResolver :=
  { getIdFromShortName := fun s =>
      if s == "temperature" then some "dtmi:temperature" else none
    getTypesFromId := fun i => if i == "dtmi:temperature" then ["Telemetry"] else []
    getTypedPropertiesFromType := fun _ => []
    getStringValuesFromShortName := fun _ => []
    getCommentFromId := fun s =>
      if s == "temperature" then some "A temperature telemetry." else none }

/-- A resolver whose graph declares the property `schema` under type `T1`
without a range type and under type `T2` with range type `string`. -/
def pC1 : DTResolver :=
  { getIdFromShortName := fun _ => none
    getTypesFromId := fun _ => []
    getTypedPropertiesFromType := fun t =>
      if t == "T1" then [{ label := "schema", required := false, type := none }]
      else if t == "T2" then
        [{ label := "schema", required := false, type := some "string" }]
      else []
    getStringValuesFromShortName := fun _ => []
    getCommentFromId := fun _ => none }

/-- A key-position cursor context whose enclosing object resolved to the
array of type ids `[T1, T2]` and has no properties yet. -/
def jC1 : JsonInfo :=
  { isValue := false, key := "", lastKey := none,
    type := JsonFieldType.arr ["T1", "T2"], properties := [] }

/-- Invariant of edit-only traces: either no timer is pending, or exactly
one is and the shared handle references it. -/
def InvE (s : LSState) : Prop :=
  s.pending = [] ∨ ∃ t, s.pending = [t] ∧ s.slot = some t.tid

section MergeLemmas

lemma orRequired_nil (lbl : String) : orRequired lbl [] = false := rfl

lemma orRequired_cons (lbl : String) (k : TypedProperty)
    (rest : List TypedProperty) :
    orRequired lbl (k :: rest) =
      (((k.label == lbl) && k.required) || orRequired lbl rest) := by
  unfold orRequired
  rw [List.any_cons]

lemma map_update_noop (s : String) (b : Bool) :
    ∀ acc : List TypedProperty, (∀ e ∈ acc, (e.label == s) = false) →
      acc.map (fun e =>
        if e.label == s then { e with required := e.required || b } else e) =
        acc := by
  intro acc
  induction acc with
  | nil => intro _; rfl
  | cons e rest ih =>
    intro h
    have he : (e.label == s) = false := h e (by simp)
    simp only [List.map_cons, he, Bool.false_eq_true, if_false]
    rw [ih (fun x hx => h x (by simp [hx]))]

lemma upsert_head_match (a k : TypedProperty) (acc : List TypedProperty)
    (hk : k.label = a.label)
    (h : ∀ e ∈ acc, (e.label == a.label) = false) :
    upsertProp (a :: acc) k =
      { a with required := a.required || k.required } :: acc := by
  have ha : (a.label == k.label) = true := by simp [hk]
  have hcond : (a :: acc).any (fun e => e.label == k.label) = true := by
    simp [List.any_cons, ha]
  simp only [upsertProp, hcond, if_true, List.map_cons, ha]
  rw [map_update_noop k.label k.required acc (by simpa [hk] using h)]

lemma upsert_head_nomatch (a k : TypedProperty) (acc : List TypedProperty)
    (hk : (a.label == k.label) = false) :
    upsertProp (a :: acc) k = a :: upsertProp acc k := by
  cases hacc : acc.any (fun e => e.label == k.label) with
  | true =>
    simp only [upsertProp, List.any_cons, hk, hacc, Bool.false_or, if_true,
      List.map_cons, Bool.false_eq_true, if_false]
  | false =>
    simp only [upsertProp, List.any_cons, hk, hacc, Bool.false_or,
      Bool.false_eq_true, if_false, List.cons_append]

lemma upsert_labels_absent (acc : List TypedProperty) (k : TypedProperty)
    (s : String) (hacc : ∀ e ∈ acc, (e.label == s) = false)
    (hk : (k.label == s) = false) :
    ∀ e ∈ upsertProp acc k, (e.label == s) = false := by
  intro e he
  unfold upsertProp at he
  split at he
  · obtain ⟨e0, he0, heq⟩ := List.mem_map.1 he
    have hl : e.label = e0.label := by
      rw [← heq]; split <;> rfl
    rw [hl]; exact hacc e0 he0
  · rcases List.mem_append.1 he with h1 | h1
    · exact hacc e h1
    · have : e = k := by simpa using h1
      rw [this]; exact hk

lemma foldl_upsert_cons :
    ∀ (l : List TypedProperty) (a : TypedProperty) (acc : List TypedProperty),
      (∀ e ∈ acc, (e.label == a.label) = false) →
      List.foldl upsertProp (a :: acc) l =
        { a with required := a.required || orRequired a.label l } ::
          List.foldl upsertProp acc (l.filter (fun e => !(e.label == a.label))) := by
  intro l
  induction l with
  | nil =>
    intro a acc _
    simp [orRequired]
  | cons k rest ih =>
    intro a acc h
    by_cases hk : (k.label == a.label) = true
    · have hk' : k.label = a.label := eq_of_beq hk
      rw [List.foldl_cons, upsert_head_match a k acc hk' h]
      rw [ih { a with required := a.required || k.required } acc h]
      have hfil : (k :: rest).filter (fun e => !(e.label == a.label)) =
          rest.filter (fun e => !(e.label == a.label)) := by
        simp [List.filter_cons, hk]
      rw [hfil]
      simp only [orRequired_cons, hk, Bool.true_and, Bool.or_assoc]
    · have hk2 : (k.label == a.label) = false := Bool.eq_false_iff.mpr hk
      have hk3 : (a.label == k.label) = false := by
        rw [beq_eq_false_iff_ne] at hk2 ⊢
        exact fun hh => hk2 hh.symm
      rw [List.foldl_cons, upsert_head_nomatch a k acc hk3]
      rw [ih a (upsertProp acc k) (upsert_labels_absent acc k a.label h hk2)]
      have hfil : (k :: rest).filter (fun e => !(e.label == a.label)) =
          k :: rest.filter (fun e => !(e.label == a.label)) := by
        simp [List.filter_cons, hk2]
      rw [hfil, List.foldl_cons]
      simp only [orRequired_cons, hk2, Bool.false_and, Bool.false_or]

end MergeLemmas

/-- C1 (amended): for a key-position request whose resolved type is an
array of type ids, the merge of lines 262-287 collapses duplicate labels
to a single entry in first-occurrence order, ORs the `required` flags of
all entries with that label, and keeps the range type of the FIRST entry
with that label — even when that range type is null; a later non-null
range type does not override it (the original claim's "first non-null
range type" rule is refuted by `mergeKeyList_firstNonNull_counterexample`). -/
theorem mergeKeyList_eq_specMerge (l : List TypedProperty) :
    mergeKeyList l = specMerge l := by
  induction l using specMerge.induct with
  | case1 => simp [mergeKeyList, specMerge]
  | case2 k rest ih =>
    unfold mergeKeyList at ih ⊢
    rw [List.foldl_cons]
    have h0 : upsertProp [] k = [k] := by
      simp [upsertProp]
    rw [h0]
    rw [foldl_upsert_cons rest k [] (by intro e he; cases he)]
    rw [specMerge, ih]

/-- C1 (counterexample): a key-position request whose object resolved to
the type array `[T1, T2]`, where `T1` declares `schema` with no range
type and `T2` declares `schema` with range type `string`. The first
non-null range type among the entries labelled `schema` is `string`, but
the merged candidate keeps `none`: the code keeps the first entry's range
type even when it is null, refuting the claim's "first non-null wins". -/
theorem mergeKeyList_firstNonNull_counterexample :
    keyCompletions pC1 jC1 =
      [{ label := "schema", required := false, type := none }] ∧
    firstNonNullRangeType "schema"
      (["T1", "T2"].foldl
        (fun acc ty => acc ++ pC1.getTypedPropertiesFromType ty) []) =
      some "string" := by
  constructor
  · decide
  · decide

/-- C4: a key-position completion never offers a label that is already
present among the enclosing object's property keys: every branch of
lines 255-307 either filters the key list against `jsonInfo.properties`
(lines 296-300) or guards the pushed entry with an explicit
`indexOf === -1` check (lines 259, 304). Consequently, re-requesting
completion after inserting a suggested key (which then appears in
`properties`) cannot offer that key again. -/
theorem keyCompletions_excludes_existing_keys
    (p : DTResolver) (j : JsonInfo) (k : TypedProperty)
    (hk : k ∈ keyCompletions p j) :
    j.properties.contains k.label = false := by
  simp only [keyCompletions] at hk
  rcases List.mem_append.1 hk with h12 | h3
  · rcases List.mem_append.1 h12 with h1 | h2
    · by_cases hc : (isRootTypeStr (resolveJsonType p j) &&
          !(j.properties.contains "@context")) = true
      · rw [if_pos hc] at h1
        have hk1 : k = { label := "@context", required := true, type := none } := by
          simpa using h1
        rw [Bool.and_eq_true] at hc
        have hc2 : (!(j.properties.contains "@context")) = true := hc.2
        rw [hk1]
        simpa using hc2
      · rw [if_neg hc] at h1
        cases h1
    · have := (List.mem_filter.1 h2).2
      simpa using this
  · by_cases hc : (isRootTypeStr (resolveJsonType p j) &&
        !(j.properties.contains "@id")) = true
    · rw [if_pos hc] at h3
      have hk1 : k = { label := "@id", required := true, type := some "string" } := by
        simpa using h3
      rw [Bool.and_eq_true] at hc
      have hc2 : (!(j.properties.contains "@id")) = true := hc.2
      rw [hk1]
      simpa using hc2
    · rw [if_neg hc] at h3
      cases h3

/-- C4 (witness): on an object of resolved type `Interface` that already
has the key `@type`, the candidate `@context` is offered and its label is
indeed not among the existing keys. -/
theorem keyCompletions_excludes_existing_keys_witness :
    (JsonInfo.mk false "" none (JsonFieldType.str "Interface")
        ["@type"]).properties.contains
      (TypedProperty.mk "@context" true none).label = false :=
  keyCompletions_excludes_existing_keys pTriv
    (JsonInfo.mk false "" none (JsonFieldType.str "Interface") ["@type"])
    (TypedProperty.mk "@context" true none) (by decide)

lemma isRootTypeStr_false_of_not_nonEmpty (t : JsonFieldType)
    (h : typeNonEmpty t = false) : isRootTypeStr t = false := by
  cases t with
  | undef => rfl
  | arr ts => rfl
  | str s =>
    have hs : s = "" := by
      have : (s == "") = true := by simpa [typeNonEmpty] using h
      exact eq_of_beq this
    rw [hs]
    decide

/-- C8 (amended): when no type is resolvable for the enclosing object —
neither a usable `@type` value nor a type inferred from the parent
property, i.e. the guard of lines 255-256 fails after the inference of
lines 243-253 — the key list is the single bootstrap entry `@type`
(required, lines 292-294); the sibling filter of lines 296-300 still
applies to it, so when `@type` is already among the object's keys (e.g. it
is present with an unusable value) the returned list is empty. The
original claim, which promises the `@type` entry unconditionally, is
refuted by `keyCompletions_bootstrap_counterexample`. -/
theorem keyCompletions_bootstrap (p : DTResolver) (j : JsonInfo)
    (h : typeNonEmpty (resolveJsonType p j) = false) :
    keyCompletions p j =
      if j.properties.contains "@type" then []
      else [{ label := "@type", required := true, type := none }] := by
  have hroot := isRootTypeStr_false_of_not_nonEmpty _ h
  simp only [keyCompletions, hroot, h, Bool.false_and, Bool.false_eq_true,
    if_false, List.nil_append, List.append_nil, List.filter_cons,
    List.filter_nil]
  cases hc : j.properties.contains "@type" with
  | true => simp [hc]
  | false => simp [hc]

/-- C8 (counterexample): the object `{"@type": ""}` — the cursor context
has `type` the empty string (an unusable `@type` value, so no type is
resolvable: the second conjunct) and `@type` among its keys — yields an
EMPTY candidate list, not the single required `@type` entry the claim
promises. -/
theorem keyCompletions_bootstrap_counterexample :
    keyCompletions pTriv
      { isValue := false, key := "", lastKey := none,
        type := JsonFieldType.str "", properties := ["@type"] } = [] ∧
    typeNonEmpty (resolveJsonType pTriv
      { isValue := false, key := "", lastKey := none,
        type := JsonFieldType.str "", properties := ["@type"] }) = false := by
  constructor
  · decide
  · decide

/-- C8 (witness): with an empty cursor context (no `@type` present, no
type resolvable) the bootstrap theorem yields the single required `@type`
candidate. -/
theorem keyCompletions_bootstrap_witness :
    keyCompletions pTriv
      { isValue := false, key := "", lastKey := none,
        type := JsonFieldType.undef, properties := [] } =
      if ([] : List String).contains "@type" then []
      else [{ label := "@type", required := true, type := none }] :=
  keyCompletions_bootstrap pTriv
    { isValue := false, key := "", lastKey := none,
      type := JsonFieldType.undef, properties := [] } (by decide)

/-- C9 (amended): the mandatory keys `@context` and `@id` are injected
(each required, each only when not already present among the object's
keys) exactly when the resolved type is the root-kind STRING `Interface`
or `CapabilityModel` (lines 257-261 and 302-307); when the resolved type
is an array — even one containing a root kind name — the strict string
comparison `jsonInfo.type === 'Interface'` fails and nothing is injected,
refuting the claim's array case (`rootInjection_array_counterexample`). -/
theorem rootInjection_string (p : DTResolver) (j : JsonInfo)
    (h : isRootTypeStr (resolveJsonType p j) = true) :
    (j.properties.contains "@context" = false →
      { label := "@context", required := true,
        type := (none : Option String) } ∈ keyCompletions p j) ∧
    (j.properties.contains "@id" = false →
      { label := "@id", required := true,
        type := some "string" } ∈ keyCompletions p j) := by
  constructor
  · intro hc
    simp only [keyCompletions, h, hc, Bool.not_false, Bool.and_self, if_true]
    exact List.mem_append.2 (Or.inl (List.mem_append.2 (Or.inl (by simp))))
  · intro hc
    simp only [keyCompletions, h, hc, Bool.not_false, Bool.and_self, if_true]
    exact List.mem_append.2 (Or.inr (by simp))

/-- C9 (counterexample): a key-position request whose resolved type is
the ARRAY `["Interface"]` with no keys present yet: the candidate list is
empty — neither `@context` nor `@id` is injected, though the claim
requires both for an array containing a root kind name. -/
theorem rootInjection_array_counterexample :
    keyCompletions pTriv
      { isValue := false, key := "", lastKey := none,
        type := JsonFieldType.arr ["Interface"], properties := [] } = [] := by
  decide

/-- C9 (witness): with resolved type the string `Interface` and no keys
present, both `@context` and `@id` are offered as required candidates. -/
theorem rootInjection_string_witness :
    { label := "@context", required := true,
      type := (none : Option String) } ∈
      keyCompletions pTriv
        { isValue := false, key := "", lastKey := none,
          type := JsonFieldType.str "Interface", properties := [] } :=
  (rootInjection_string pTriv
    { isValue := false, key := "", lastKey := none,
      type := JsonFieldType.str "Interface", properties := [] }
    (by decide)).1 (by decide)

/-- C6: at a value-position completion on the key `@context`, the
candidate list is exactly the one fixed URI literal determined by the
context kind (extension.ts lines 209-213):
`http://azureiot.com/v0/contexts/Interface.json` for Interface and
`http://azureiot.com/v0/contexts/CapabilityModel.json` for
CapabilityModel. -/
theorem atContextValue_single_fixed_uri (p : DTResolver)
    (ctx : DocumentType) (j : JsonInfo)
    (hv : j.isValue = true) (hk : j.key = "@context") :
    provideCompletionItems p ctx (some j) =
      CompletionResult.values [contextUri ctx] ∧
    contextUri DocumentType.Interface =
      "http://azureiot.com/v0/contexts/Interface.json" ∧
    contextUri DocumentType.CapabilityModel =
      "http://azureiot.com/v0/contexts/CapabilityModel.json" := by
  refine ⟨?_, rfl, rfl⟩
  have hc : (j.key == "@context") = true := by
    rw [hk]; decide
  simp only [provideCompletionItems, hv, if_true, valueCompletions, hc]

/-- C6 (witness): the scenario of the spec — an Interface-kind context,
cursor in the `@context` value — offers exactly the Interface context
URI. -/
theorem atContextValue_single_fixed_uri_witness :
    provideCompletionItems pTriv DocumentType.Interface
      (some { isValue := true, key := "@context", lastKey := none,
              type := JsonFieldType.undef, properties := [] }) =
      CompletionResult.values
        ["http://azureiot.com/v0/contexts/Interface.json"] := by
  have h := (atContextValue_single_fixed_uri pTriv DocumentType.Interface
    { isValue := true, key := "@context", lastKey := none,
      type := JsonFieldType.undef, properties := [] } rfl rfl).1
  rw [h]
  decide

/-- C5 (amended): at a value-position completion on the key `@type`
(extension.ts lines 214-224): when the parent property name `lastKey` is
truthy and resolves, the candidates are exactly the declared types of the
resolved property; when `lastKey` is truthy but does not resolve, the
result is `null`; when there is no truthy parent property name, the
single candidate is the current context kind's name — ONE root kind name,
not the two names the original claim requires (refuted by
`atTypeValue_counterexample`). -/
theorem atTypeValue_characterization (p : DTResolver)
    (ctx : DocumentType) (j : JsonInfo)
    (hv : j.isValue = true) (hk : j.key = "@type") :
    (j.lastKey = none →
      provideCompletionItems p ctx (some j) =
        CompletionResult.values [docTypeName ctx]) ∧
    (∀ lk, j.lastKey = some lk → (lk == "") = true →
      provideCompletionItems p ctx (some j) =
        CompletionResult.values [docTypeName ctx]) ∧
    (∀ lk, j.lastKey = some lk → (lk == "") = false →
      p.getIdFromShortName lk = none →
      provideCompletionItems p ctx (some j) = CompletionResult.noResult) ∧
    (∀ lk id, j.lastKey = some lk → (lk == "") = false →
      p.getIdFromShortName lk = some id →
      provideCompletionItems p ctx (some j) =
        CompletionResult.values (p.getTypesFromId id)) := by
  have hc : (j.key == "@context") = false := by
    rw [hk]; rfl
  have ht : (j.key == "@type") = true := by
    rw [hk]; decide
  refine ⟨?_, ?_, ?_, ?_⟩
  · intro hnone
    simp only [provideCompletionItems, hv, if_true, valueCompletions, hc,
      Bool.false_eq_true, if_false, ht, hnone]
  · intro lk hlk he
    simp only [provideCompletionItems, hv, if_true, valueCompletions, hc,
      Bool.false_eq_true, if_false, ht, hlk, he]
  · intro lk hlk he hid
    simp only [provideCompletionItems, hv, if_true, valueCompletions, hc,
      Bool.false_eq_true, if_false, ht, hlk, he, hid]
  · intro lk id hlk he hid
    simp only [provideCompletionItems, hv, if_true, valueCompletions, hc,
      Bool.false_eq_true, if_false, ht, hlk, he, hid]

/-- C5 (counterexample): value-position completion on `@type` with no
parent property, in an Interface-kind context: the candidate list is the
single name `Interface` — the second root kind name `CapabilityModel` is
never offered, refuting the claim that the candidates are the TWO root
kind names. -/
theorem atTypeValue_counterexample :
    provideCompletionItems pTriv DocumentType.Interface
      (some { isValue := true, key := "@type", lastKey := none,
              type := JsonFieldType.undef, properties := [] }) =
      CompletionResult.values ["Interface"] ∧
    ¬ provideCompletionItems pTriv DocumentType.Interface
        (some { isValue := true, key := "@type", lastKey := none,
                type := JsonFieldType.undef, properties := [] }) =
        CompletionResult.values ["Interface", "CapabilityModel"] := by
  constructor
  · decide
  · decide

/-- C5 (witness): the parent property `temperature` resolves to an id
with declared types `[Telemetry]`, so the `@type` value candidates are
exactly `[Telemetry]`. -/
theorem atTypeValue_characterization_witness :
    provideCompletionItems pW DocumentType.Interface
      (some { isValue := true, key := "@type", lastKey := some "temperature",
              type := JsonFieldType.undef, properties := [] }) =
      CompletionResult.values ["Telemetry"] := by
  have h := (atTypeValue_characterization pW DocumentType.Interface
    { isValue := true, key := "@type", lastKey := some "temperature",
      type := JsonFieldType.undef, properties := [] } rfl rfl).2.2.2
    "temperature" "dtmi:temperature" rfl (by decide) (by decide)
  rw [h]
  decide

/-- C7 (amended): the hover provider special-cases exactly THREE reserved
keys — `@id`, `@type` and `@context` get fixed documentation strings
(extension.ts lines 164-172) — while every other resolved identifier,
INCLUDING `@value`, falls through to its comment from the ontology graph
(line 173), yielding no result when there is none (or when the comment is
empty, line 176). The original claim's fourth reserved key `@value` is
refuted by `provideHover_atValue_counterexample`. -/
theorem provideHover_characterization (p : DTResolver) :
    provideHover p (some "@id") =
      some "An identifier for Digital Twin capability model or interface." ∧
    provideHover p (some "@type") =
      some "The type of Digital Twin meta model object." ∧
    provideHover p (some "@context") =
      some "The context for Digital Twin capability model or interface." ∧
    (∀ id, (id == "") = false → (id == "@id") = false →
      (id == "@type") = false → (id == "@context") = false →
      provideHover p (some id) =
        (p.getCommentFromId id).bind
          (fun t => if t == "" then none else some t)) := by
  refine ⟨by rfl, by rfl, by rfl, ?_⟩
  intro id h0 h1 h2 h3
  simp only [provideHover, h0, h1, h2, h3, Bool.false_eq_true, if_false]
  cases p.getCommentFromId id with
  | none => rfl
  | some t => rfl

/-- C7 (counterexample): when the ontology graph has no comment for
`@value` (the trivial resolver), hovering `@value` yields NO result — not
the fixed documentation string the claim promises for it: `@value` is not
among the special-cased keys. -/
theorem provideHover_atValue_counterexample :
    provideHover pTriv (some "@value") = none ∧
    provideHover pTriv (some "@id") =
      some "An identifier for Digital Twin capability model or interface." := by
  constructor
  · decide
  · decide

/-- C7 (witness): the fixed `@id` string, and a graph-resolved identifier
(`temperature`) yielding its graph comment. -/
theorem provideHover_characterization_witness :
    provideHover pW (some "temperature") = some "A temperature telemetry." := by
  have h := (provideHover_characterization pW).2.2.2 "temperature"
    (by decide) (by decide) (by decide) (by decide)
  rw [h]
  decide

/-- C10: the embedded `provideCompletionItems` is a total function of the
parser's cursor context and the resolver, and the ONLY inputs on which it
returns the `null` outcome are: no cursor context at all (lines 204-206),
or a value-position request on `@type` whose truthy parent property name
does not resolve to an id (lines 218-220). On every other input it
returns a candidate list — possibly empty — as a normal value; no input
produces an error. -/
theorem provideCompletionItems_noResult_iff (p : DTResolver)
    (ctx : DocumentType) (jOpt : Option JsonInfo) :
    provideCompletionItems p ctx jOpt = CompletionResult.noResult ↔
      (jOpt = none ∨
        ∃ j lk, jOpt = some j ∧ j.isValue = true ∧ j.key = "@type" ∧
          j.lastKey = some lk ∧ (lk == "") = false ∧
          p.getIdFromShortName lk = none) := by
  cases jOpt with
  | none => simp [provideCompletionItems]
  | some j =>
    simp only [provideCompletionItems, Option.some.injEq, reduceCtorEq,
      false_or]
    cases hv : j.isValue with
    | false =>
      constructor
      · intro h
        cases h
      · rintro ⟨j2, lk, rfl, hv2, -⟩
        rw [hv] at hv2
        cases hv2
    | true =>
      simp only [if_true]
      unfold valueCompletions
      by_cases hc : (j.key == "@context") = true
      · have hceq : j.key = "@context" := eq_of_beq hc
        simp only [hc, if_true]
        constructor
        · intro h
          cases h
        · rintro ⟨j2, lk, rfl, -, hk2, -⟩
          rw [hceq] at hk2
          exact absurd hk2 (by decide)
      · have hc2 : (j.key == "@context") = false := Bool.eq_false_iff.mpr hc
        by_cases ht : (j.key == "@type") = true
        · have hteq : j.key = "@type" := eq_of_beq ht
          simp only [hc2, Bool.false_eq_true, if_false, ht, if_true]
          cases hlk : j.lastKey with
          | none =>
            constructor
            · intro h
              cases h
            · rintro ⟨j2, lk, rfl, -, -, hlk2, -⟩
              rw [hlk] at hlk2
              cases hlk2
          | some lk =>
            by_cases he : (lk == "") = true
            · simp only [he, if_true]
              constructor
              · intro h
                cases h
              · rintro ⟨j2, lk2, rfl, -, -, hlk2, he2, -⟩
                rw [hlk] at hlk2
                cases hlk2
                rw [he] at he2
                cases he2
            · have he2 : (lk == "") = false := Bool.eq_false_iff.mpr he
              simp only [he2, Bool.false_eq_true, if_false]
              cases hid : p.getIdFromShortName lk with
              | none =>
                simp only [true_iff]
                exact ⟨j, lk, rfl, hv, hteq, hlk, he2, hid⟩
              | some id =>
                constructor
                · intro h
                  cases h
                · rintro ⟨j2, lk2, rfl, -, -, hlk2, -, hid2⟩
                  rw [hlk] at hlk2
                  cases hlk2
                  rw [hid] at hid2
                  cases hid2
        · have ht2 : (j.key == "@type") = false := Bool.eq_false_iff.mpr ht
          simp only [hc2, ht2, Bool.false_eq_true, if_false]
          constructor
          · intro h
            cases h
          · rintro ⟨j2, lk, rfl, -, hk2, -⟩
            rw [hk2] at ht2
            simp at ht2

/-- C10 (witness): with no cursor context the provider returns the `null`
outcome, by the characterization. -/
theorem provideCompletionItems_noResult_iff_witness :
    provideCompletionItems pTriv DocumentType.Interface none =
      CompletionResult.noResult :=
  (provideCompletionItems_noResult_iff pTriv DocumentType.Interface
    none).mpr (Or.inl rfl)

/-- C2 (counterexample): the pending-revalidation timer slot is NOT
per-document. First conjunct: after editing `a.interface.json` one timer
is pending for it. Second: a subsequent edit of the DISTINCT document
`b.interface.json` cancels `a`'s pending revalidation (the handler clears
whatever `waitingForUpdatingDiagnostic` references, lines 105-107), so
timers for distinct documents are not independent. Third: two open events
for the same document leave TWO simultaneously pending timers for it (the
open handler, lines 89-96, overwrites the handle without clearing), so
"at most one pending revalidation per document" also fails. -/
theorem timerSlot_counterexample :
    (pendingFor (runEvents noDiagnostics
        [DocEvent.editDoc "a.interface.json"]) "a.interface.json").length = 1 ∧
    (pendingFor (runEvents noDiagnostics
        [DocEvent.editDoc "a.interface.json",
         DocEvent.editDoc "b.interface.json"]) "a.interface.json").length = 0 ∧
    (pendingFor (runEvents noDiagnostics
        [DocEvent.openDoc "a.interface.json",
         DocEvent.openDoc "a.interface.json"]) "a.interface.json").length = 2 := by
  refine ⟨by decide, by decide, by decide⟩

lemma stepEdit_singleton (v : DocumentType → String → List String)
    (s : LSState) (d : String) (hd : matchesMetaModel d = true)
    (h : InvE s) :
    (step v s (DocEvent.editDoc d)).pending =
      [⟨s.nextId, d, TimerKind.editTimer⟩] ∧
    (step v s (DocEvent.editDoc d)).slot = some s.nextId := by
  rcases h with h0 | ⟨t, hp, hs⟩
  · cases hslot : s.slot with
    | none => simp [step, hd, h0, hslot]
    | some tid => simp [step, hd, h0, hslot]
  · simp [step, hd, hp, hs, List.filter_cons]

lemma editRun (v : DocumentType → String → List String) :
    ∀ (ds : List String) (s : LSState),
      (∀ d ∈ ds, matchesMetaModel d = true) → InvE s →
      InvE (List.foldl (step v) s (ds.map DocEvent.editDoc)) ∧
      (∀ t ∈ (List.foldl (step v) s (ds.map DocEvent.editDoc)).pending,
        ds.getLast? = some t.doc ∨ (ds = [] ∧ t ∈ s.pending)) := by
  intro ds
  induction ds with
  | nil =>
    intro s _ hI
    exact ⟨hI, fun t ht => Or.inr ⟨rfl, ht⟩⟩
  | cons d rest ih =>
    intro s h hI
    have hd : matchesMetaModel d = true := h d (by simp)
    have hrest : ∀ x ∈ rest, matchesMetaModel x = true :=
      fun x hx => h x (by simp [hx])
    obtain ⟨hp, hs⟩ := stepEdit_singleton v s d hd hI
    have hI1 : InvE (step v s (DocEvent.editDoc d)) :=
      Or.inr ⟨⟨s.nextId, d, TimerKind.editTimer⟩, hp, hs⟩
    obtain ⟨hI2, hlast⟩ := ih (step v s (DocEvent.editDoc d)) hrest hI1
    rw [List.map_cons, List.foldl_cons]
    refine ⟨hI2, ?_⟩
    intro t ht
    rcases hlast t ht with h1 | ⟨hnil, hmem⟩
    · left
      cases rest with
      | nil => cases h1
      | cons r rs => rw [List.getLast?_cons_cons]; exact h1
    · left
      subst hnil
      rw [hp] at hmem
      have : t = ⟨s.nextId, d, TimerKind.editTimer⟩ := by simpa using hmem
      rw [this]
      simp

/-- C2 (amended): `waitingForUpdatingDiagnostic` is a single handle shared
by ALL metamodel documents (extension.ts line 82), not a per-document
slot: the edit handler cancels whatever pending revalidation that handle
references — regardless of which document it belongs to — before
scheduling a new one (lines 105-117). Hence along any trace of edit
events, at most ONE revalidation timer is pending globally, and it
belongs to the most recently edited document; the original per-document
independence is refuted by `timerSlot_counterexample`. -/
theorem editTrace_single_global_timer
    (v : DocumentType → String → List String) (ds : List String)
    (h : ∀ d ∈ ds, matchesMetaModel d = true) :
    (runEvents v (ds.map DocEvent.editDoc)).pending.length ≤ 1 ∧
    (∀ t ∈ (runEvents v (ds.map DocEvent.editDoc)).pending,
      ds.getLast? = some t.doc) := by
  obtain ⟨hI, hlast⟩ := editRun v ds initState h (Or.inl rfl)
  constructor
  · rcases hI with h0 | ⟨t, hp, -⟩
    · rw [runEvents, h0]
      decide
    · rw [runEvents, hp]
      simp
  · intro t ht
    rcases hlast t ht with h1 | ⟨-, hmem⟩
    · exact h1
    · cases hmem

/-- C2 (witness): a one-edit trace has exactly one pending timer. -/
theorem editTrace_single_global_timer_witness :
    (runEvents noDiagnostics
      (["a.interface.json"].map DocEvent.editDoc)).pending.length ≤ 1 :=
  (editTrace_single_global_timer noDiagnostics ["a.interface.json"]
    (by decide)).1

lemma find?_removeDiagEntry (m : List (String × List String)) (d : String) :
    (removeDiagEntry m d).find? (fun e => e.1 == d) = none := by
  induction m with
  | nil => rfl
  | cons e rest ih =>
    rw [removeDiagEntry, List.filter_cons]
    cases he : (e.1 == d) with
    | true =>
      simp only [he, Bool.not_true, Bool.false_eq_true, if_false]
      exact ih
    | false =>
      simp only [he, Bool.not_false, if_true, List.find?_cons, he]
      exact ih

/-- C3 (amended): closing a metamodel document immediately discards its
diagnostic listing — right after the close event the listing for that
document identity is empty (`dtDiagnostic.delete`, lines 138-149) — but
the close handler does NOT cancel pending revalidation timers nor touch
the shared handle, so a timer scheduled before the close survives it and,
when it fires, re-adds diagnostics for the closed document; the original
"remains empty, no timer can re-add" is refuted by
`closeDoc_resurrection_counterexample`. -/
theorem closeDoc_clears_immediately
    (v : DocumentType → String → List String) (s : LSState) (d : String)
    (hd : matchesMetaModel d = true) :
    getDiagsOf (step v s (DocEvent.closeDoc d)) d = [] ∧
    (step v s (DocEvent.closeDoc d)).pending = s.pending ∧
    (step v s (DocEvent.closeDoc d)).slot = s.slot := by
  refine ⟨?_, by simp [step, hd], by simp [step, hd]⟩
  simp only [step, hd, if_true, getDiagsOf, find?_removeDiagEntry]
  rfl

/-- C3 (counterexample): edit `a.interface.json` (scheduling a 500ms
revalidation), close it before the timer fires: immediately after the
close the listing is empty (first conjunct) — but the pending timer
survives and, when it fires, re-adds a diagnostic for the CLOSED document
(second conjunct), so the listing does not remain empty and a pending
timer can re-add diagnostics after close. -/
theorem closeDoc_resurrection_counterexample :
    getDiagsOf (runEvents oneDiagnostic
      [DocEvent.editDoc "a.interface.json",
       DocEvent.closeDoc "a.interface.json"]) "a.interface.json" = [] ∧
    getDiagsOf (runEvents oneDiagnostic
      [DocEvent.editDoc "a.interface.json",
       DocEvent.closeDoc "a.interface.json",
       DocEvent.fireTimer 0]) "a.interface.json" =
      ["MissingRequiredProperty"] := by
  refine ⟨by decide, by decide⟩

/-- C3 (witness): closing a document whose listing is non-empty (after an
immediate editor-switch validation) empties the listing at once. -/
theorem closeDoc_clears_immediately_witness :
    getDiagsOf (step oneDiagnostic
      (runEvents oneDiagnostic [DocEvent.switchEditor "a.interface.json"])
      (DocEvent.closeDoc "a.interface.json")) "a.interface.json" = [] :=
  (closeDoc_clears_immediately oneDiagnostic
    (runEvents oneDiagnostic [DocEvent.switchEditor "a.interface.json"])
    "a.interface.json" (by decide)).1
